import Mathlib

/-!
Verification of the editing/rendering engine of a minimal terminal text
editor written as a single C++ source file (src/main.cpp).

Modelling conventions for the shallow embedding:
* a byte is a Nat in 0..255; a std::string is a List Nat (type Str);
  std::vector<std::string> is a List Str;
* C++ int fields are modeled as Int;
* a comparison between a C++ int i and a size_t n first converts i to an
  unsigned value; for containers that fit in memory this is equivalent to
  (0 ≤ i ∧ i < n) for "<", to (i = n) for "==" (a negative i never compares
  equal to a container size), and to (i < 0 ∨ i > n) for ">"; comparisons
  are written in that expanded form below;
* operations whose C++ counterpart can perform an out-of-range vector or
  string access (undefined behavior, or std::out_of_range from
  std::string::insert / substr) return Option and yield none exactly on the
  inputs that reach such an access;
* terminal I/O is represented by its observable data: readKey consumes a
  list of pending input bytes (the C++ code reads the escape-sequence
  continuation bytes through the stdout descriptor, which on a terminal is
  the same tty device as stdin, so a single pending-byte stream is
  faithful), and save returns the byte string it writes to disk.
-/

/-- A byte string (std::string of bytes). -/
abbrev Str := List Nat

/-- constexpr int TAB_SIZE = 8. -/
def TAB_SIZE : Nat := 8

/-- enum EditorKey. -/
def BACKSPACE : Int := 127

def ARROW_LEFT : Int := 1000

def ARROW_RIGHT : Int := 1001

def ARROW_UP : Int := 1002

def ARROW_DOWN : Int := 1003

def DEL_KEY : Int := 1004

def HOME_KEY : Int := 1005

def END_KEY : Int := 1006

def PAGE_UP : Int := 1007

def PAGE_DOWN : Int := 1008

/-- constexpr char ctrlWith(char c) is (c & 0x1f); it is only applied to
ASCII letter literals, which are nonnegative, so toNat is exact. -/
def ctrlWith (c : Int) : Int := ((c.toNat &&& 31 : Nat) : Int)

/-- struct EditorConfig: the global editor state g_E.  The termios field and
the status-message timestamp are terminal-session data with no effect on the
editing logic and are not modeled. -/
@[ext]
structure EditorConfig where
  cursorX : Int := 0
  cursorY : Int := 0
  cursorRX : Int := 0
  screenRows : Int := 0
  screenCols : Int := 0
  rowOffset : Int := 0
  colOffset : Int := 0
  lines : List Str := []
  renders : List Str := []
  filename : Str := []
  statusMsg : Str := []
  modified : Bool := false
  deriving DecidableEq

/-- std::vector::insert(begin()+n, a) for 0 ≤ n ≤ length (the callers guard
this range before using it). -/
def listInsertAt (l : List α) (n : Nat) (a : α) : List α :=
  l.take n ++ [a] ++ l.drop n

/-- std::vector::erase(begin()+n) for n < length (the callers guard this
range before using it). -/
def listEraseAt (l : List α) (n : Nat) : List α :=
  l.take n ++ l.drop (n + 1)

/-- convertToRenderingRow: replace every tab byte (9) by TAB_SIZE space
bytes (32); every other byte is copied unchanged (the C++ loop pushes the
bytes in order, which the recursion reproduces). -/
def convertToRenderingRow : Str → Str
  | [] => []
  | c :: rest =>
      (if c = 9 then List.replicate TAB_SIZE 32 else [c]) ++ convertToRenderingRow rest

/-- One iteration of the rx loop in editorScroll: on a tab byte
rx += (TAB_SIZE - 1) - (rx % TAB_SIZE) followed by rx++; on any other byte
just rx++.  rx starts at 0 and only grows, so Nat arithmetic is exact. -/
def rxAdvance (rx : Nat) (c : Nat) : Nat :=
  if c = 9 then rx + ((TAB_SIZE - 1) - rx % TAB_SIZE) + 1 else rx + 1

/-- The render column reached after replaying the editorScroll rx loop over
the first x bytes of a line (bytes [0, x)). -/
def xToRx (line : Str) (x : Nat) : Nat :=
  (line.take x).foldl rxAdvance 0

/-- Safe indexed lookup of a line: the C++ pattern
(y >= lines.size()) ? "" : lines[y], where the int/size_t comparison makes
every negative y take the empty-string branch as well. -/
def lineAt (ls : List Str) (y : Int) : Str :=
  if 0 ≤ y ∧ y < (ls.length : Int) then ls.getD y.toNat [] else []

/-- The rx value recomputed by the first block of editorScroll. -/
def rxValue (E : EditorConfig) : Int :=
  (xToRx (E.lines.getD E.cursorY.toNat []) E.cursorX.toNat : Int)

/-- First block of editorScroll: if (cursorY < lines.size()) recompute
cursorRX by replaying tab expansion over bytes [0, cursorX). -/
def scrollRX (E : EditorConfig) : EditorConfig :=
  if 0 ≤ E.cursorY ∧ E.cursorY < (E.lines.length : Int) then
    { E with cursorRX := rxValue E }
  else E

/-- The two sequential offset updates editorScroll applies to each axis:
if (pos < off) off = pos; if (pos >= off + win) off = pos - win + 1. -/
def offsetAdjust (pos off win : Int) : Int :=
  let off1 := if pos < off then pos else off
  if pos ≥ off1 + win then pos - win + 1 else off1

/-- Column blocks of editorScroll (colOffset updates driven by cursorRX and
screenCols). -/
def scrollCol (E : EditorConfig) : EditorConfig :=
  { E with colOffset := offsetAdjust E.cursorRX E.colOffset E.screenCols }

/-- Row blocks of editorScroll (rowOffset updates driven by cursorY and
screenRows). -/
def scrollRow (E : EditorConfig) : EditorConfig :=
  { E with rowOffset := offsetAdjust E.cursorY E.rowOffset E.screenRows }

/-- editorScroll: recompute cursorRX, then reconcile colOffset, then
rowOffset, exactly in the statement order of the C++ function. -/
def editorScroll (E : EditorConfig) : EditorConfig :=
  scrollRow (scrollCol (scrollRX E))

/-- The cursor (y, x) produced by the switch statement of moveCursor,
before the snap-back clamp. -/
def moveCursorXY (k : Int) (E : EditorConfig) : Int × Int :=
  let currentLine := lineAt E.lines E.cursorY
  if k = ARROW_LEFT then
    if E.cursorX > 0 then (E.cursorY, E.cursorX - 1)
    else if E.cursorY > 0 then
      -- cursorY--; cursorX = lines[cursorY].size() (the editor only calls
      -- this with cursorY ≤ lines.size(), where the access is in range and
      -- getD equals the real vector access)
      (E.cursorY - 1, ((E.lines.getD (E.cursorY - 1).toNat []).length : Int))
    else (E.cursorY, E.cursorX)
  else if k = ARROW_RIGHT then
    -- currentLine.size() > 0 && cursorX < currentLine.size(), with the
    -- int/size_t comparison expanded
    if 0 < currentLine.length ∧ 0 ≤ E.cursorX ∧ E.cursorX < (currentLine.length : Int) then
      (E.cursorY, E.cursorX + 1)
    else if (0 ≤ E.cursorY ∧ E.cursorY < (E.lines.length : Int)) ∧
        E.cursorX = (currentLine.length : Int) then
      (E.cursorY + 1, 0)
    else (E.cursorY, E.cursorX)
  else if k = ARROW_UP then
    if E.cursorY > 0 then (E.cursorY - 1, E.cursorX) else (E.cursorY, E.cursorX)
  else if k = ARROW_DOWN then
    if 0 ≤ E.cursorY ∧ E.cursorY < (E.lines.length : Int) then
      (E.cursorY + 1, E.cursorX)
    else (E.cursorY, E.cursorX)
  else (E.cursorY, E.cursorX)

/-- moveCursor: the switch statement followed by the snap-back clamp of
cursorX to the length of the (possibly new) current line; rowLen is that
length (the C++ ternary rowLen = size ? size : 0 is just size). -/
def moveCursor (k : Int) (E : EditorConfig) : EditorConfig :=
  let yx := moveCursorXY k E
  let rowLen : Int := ((lineAt E.lines yx.1).length : Int)
  if yx.2 > rowLen then { E with cursorY := yx.1, cursorX := rowLen }
  else { E with cursorY := yx.1, cursorX := yx.2 }

/-- save(): returns the unchanged editor state paired with the byte string
written to the file (none when filename is empty, in which case the
function returns without writing).  save never assigns to any g_E field. -/
def save (E : EditorConfig) : EditorConfig × Option Str :=
  (E, if E.filename.length = 0 then none
      else some (E.lines.foldl (fun acc l => acc ++ l ++ [10]) []))

/-- deleteChar: none exactly when the C++ function would index lines or
renders out of range (possible only from a malformed cursor). -/
def deleteChar (E : EditorConfig) : Option EditorConfig :=
  if E.cursorY = (E.lines.length : Int) then some E
  else if E.cursorY = 0 ∧ E.cursorX = 0 then some E
  else if E.cursorX > 0 then
    -- org = lines[cursorY]; lines[cursorY] = org.substr(0, x-1) + org.substr(x, ..)
    if (0 ≤ E.cursorY ∧ E.cursorY < (E.lines.length : Int)) ∧
        E.cursorY < (E.renders.length : Int) ∧
        E.cursorX ≤ ((E.lines.getD E.cursorY.toNat []).length : Int) then
      let y := E.cursorY.toNat
      let org := E.lines.getD y []
      let xpos := E.cursorX.toNat
      let newLine := org.take (xpos - 1) ++ org.drop xpos
      some { E with
              lines := E.lines.set y newLine
              renders := E.renders.set y (convertToRenderingRow newLine)
              cursorX := E.cursorX - 1
              modified := true }
    else none
  else
    -- backspace at the start of a line: merge line cursorY into cursorY-1
    if 1 ≤ E.cursorY ∧ E.cursorY < (E.lines.length : Int) ∧
        E.cursorY < (E.renders.length : Int) then
      let y := E.cursorY.toNat
      let prev := E.lines.getD (y - 1) []
      let cur := E.lines.getD y []
      let rprev := E.renders.getD (y - 1) []
      let rcur := E.renders.getD y []
      some { E with
              cursorX := (prev.length : Int)
              lines := listEraseAt (E.lines.set (y - 1) (prev ++ cur)) y
              renders := listEraseAt (E.renders.set (y - 1) (rprev ++ rcur)) y
              cursorY := E.cursorY - 1
              modified := true }
    else none

/-- insertLine: inserts an empty line at cursorY+1, then splits the cached
render string and the line at byte offset cursorX.  none exactly when the
C++ function would pass an out-of-range iterator to vector::insert (in
particular cursorY = lines.size(), reachable by pressing Enter on the
virtual line past the end) or an out-of-range position to substr. -/
def insertLine (E : EditorConfig) : Option EditorConfig :=
  let ypos := E.cursorY
  if 0 ≤ ypos ∧ ypos + 1 ≤ (E.lines.length : Int) ∧ ypos + 1 ≤ (E.renders.length : Int) then
    let y := ypos.toNat
    let lines1 := listInsertAt E.lines (y + 1) []
    let renders1 := listInsertAt E.renders (y + 1) []
    let xpos := E.cursorX
    if 0 ≤ xpos ∧ xpos ≤ ((renders1.getD y []).length : Int) ∧
        xpos ≤ ((lines1.getD y []).length : Int) then
      let x := xpos.toNat
      let r := renders1.getD y []
      let l := lines1.getD y []
      some { E with
              lines := (lines1.set (y + 1) (l.drop x)).set y (l.take x)
              renders := (renders1.set (y + 1) (r.drop x)).set y (r.take x)
              cursorY := E.cursorY + 1
              cursorX := 0 }
    else none
  else none

/-- The default case of processKey: insert byte c at the cursor, appending
a fresh empty line first when the cursor sits on the virtual line past the
end.  The int key is narrowed to a byte exactly as the char conversion in
lines[y].insert(cursorX, 1, c) does. -/
def insertCharDefault (c : Int) (E : EditorConfig) : Option EditorConfig :=
  let E1 :=
    if E.cursorY = (E.lines.length : Int) then
      { E with lines := E.lines ++ [[]],
               renders := E.renders ++ [convertToRenderingRow []] }
    else E
  if (0 ≤ E1.cursorY ∧ E1.cursorY < (E1.lines.length : Int)) ∧
      E1.cursorY < (E1.renders.length : Int) ∧
      0 ≤ E1.cursorX ∧ E1.cursorX ≤ ((E1.lines.getD E1.cursorY.toNat []).length : Int) then
    let y := E1.cursorY.toNat
    let line := E1.lines.getD y []
    let x := E1.cursorX.toNat
    let newLine := line.take x ++ [(c % 256).toNat] ++ line.drop x
    some { E1 with
            lines := E1.lines.set y newLine
            renders := E1.renders.set y (convertToRenderingRow newLine)
            cursorX := E1.cursorX + 1 }
  else none

/-- processKey: dispatch on the decoded key code.  Ctrl-Q clears the screen
and exits the process with the state otherwise untouched, and Ctrl-S only
performs the save write, so both leave the editor state unchanged. -/
def processKey (c : Int) (E : EditorConfig) : Option EditorConfig :=
  if c = 0 then some E
  else if c = 13 then insertLine E
  else if c = ctrlWith 113 then some E
  else if c = ctrlWith 115 then some (save E).1
  else if c = HOME_KEY then some { E with cursorX := 0 }
  else if c = END_KEY then
    if 0 ≤ E.cursorY ∧ E.cursorY < (E.lines.length : Int) then
      some { E with cursorX := ((E.lines.getD E.cursorY.toNat []).length : Int) }
    else some E
  else if c = BACKSPACE ∨ c = ctrlWith 104 ∨ c = DEL_KEY then
    deleteChar (if c = DEL_KEY then moveCursor ARROW_RIGHT E else E)
  else if c = PAGE_UP ∨ c = PAGE_DOWN then
    let E1 :=
      if c = PAGE_UP then { E with cursorY := E.rowOffset }
      else
        -- cursorY = rowOffset + screenRows - 1, clamped by the int/size_t
        -- comparison (cursorY > lines.size()), which is also taken by any
        -- negative cursorY
        let yv := E.rowOffset + E.screenRows - 1
        { E with cursorY :=
            if yv < 0 ∨ yv > (E.lines.length : Int) then (E.lines.length : Int) else yv }
    -- while (times--) moveCursor(..) with times = screenRows: screenRows
    -- iterations when screenRows ≥ 0 (a negative screenRows makes the C++
    -- loop run away; toNat models the nonnegative cases)
    some ((moveCursor (if c = PAGE_UP then ARROW_UP else ARROW_DOWN))^[E1.screenRows.toNat] E1)
  else if c = ARROW_DOWN ∨ c = ARROW_UP ∨ c = ARROW_LEFT ∨ c = ARROW_RIGHT then
    some (moveCursor c E)
  else if c = ctrlWith 108 ∨ c = 27 then some E
  else insertCharDefault c E

/-- readKey: consume bytes from the pending terminal input and decode one
logical key event; an empty list models a read that times out (read()
returns 0 and the int c keeps its '\0' initialisation, or returns '\x1b'
mid-sequence).  Returns the key code and the bytes left unread. -/
def readKey : List Nat → Int × List Nat
  | [] => (0, [])
  | c :: rest =>
    if c = 27 then
      match rest with
      | [] => (27, [])
      | s0 :: rest1 =>
        match rest1 with
        | [] => (27, [])
        | s1 :: rest2 =>
          if s0 = 91 then
            if 48 ≤ s1 ∧ s1 ≤ 57 then
              match rest2 with
              | [] => (27, [])
              | s2 :: rest3 =>
                if s2 = 126 then
                  ((if s1 = 49 then HOME_KEY
                    else if s1 = 51 then DEL_KEY
                    else if s1 = 52 then END_KEY
                    else if s1 = 53 then PAGE_UP
                    else if s1 = 54 then PAGE_DOWN
                    else if s1 = 55 then HOME_KEY
                    else if s1 = 56 then END_KEY
                    else 27), rest3)
                else (27, rest3)
            else
              ((if s1 = 65 then ARROW_UP
                else if s1 = 66 then ARROW_DOWN
                else if s1 = 67 then ARROW_RIGHT
                else if s1 = 68 then ARROW_LEFT
                else if s1 = 72 then HOME_KEY
                else if s1 = 70 then END_KEY
                else 27), rest2)
          else if s0 = 48 then
            ((if s1 = 72 then HOME_KEY
              else if s1 = 70 then END_KEY
              else 27), rest2)
          else (27, rest2)
    else ((c : Int), rest)

/-- One iteration of the main loop on an already-decoded key: refreshScreen
(whose only state effect is editorScroll) followed by processKey. -/
def loopStep (c : Int) (E : EditorConfig) : Option EditorConfig :=
  processKey c (editorScroll E)

/-- Run the main loop over a list of decoded keys; none as soon as a step
would perform an out-of-range access. -/
def runEditor (E : EditorConfig) : List Int → Option EditorConfig
  | [] => some E
  | c :: cs =>
    match loopStep c E with
    | none => none
    | some E1 => runEditor E1 cs

/-- The state after initEditor and editorOpen: cursor and offsets zeroed,
modified cleared, two rows reserved for the status lines, each file line
paired with its freshly generated render line. -/
def initialState (fileLines : List Str) (rows cols : Int) (fname : Str) : EditorConfig :=
  { cursorX := 0, cursorY := 0, cursorRX := 0
    screenRows := rows - 2, screenCols := cols
    rowOffset := 0, colOffset := 0
    lines := fileLines
    renders := fileLines.map convertToRenderingRow
    filename := fname
    statusMsg := []
    modified := false }

/-- The cursor bounds the spec claims: y in [0, len(lines)] and x in
[0, len(lines[y])].  When y = len(lines) the lookup defaults to the empty
line, so the bound forces x = 0 there. -/
def cursorInv (E : EditorConfig) : Prop :=
  0 ≤ E.cursorY ∧ E.cursorY ≤ (E.lines.length : Int) ∧ 0 ≤ E.cursorX ∧
    E.cursorX ≤ ((E.lines.getD E.cursorY.toNat []).length : Int)

instance (E : EditorConfig) : Decidable (cursorInv E) := by
  unfold cursorInv; infer_instance

/-- The tab-stop property of xToRx: reading a tab byte advances the render
column to the next multiple of TAB_SIZE (a strict advance of at most
TAB_SIZE, landing on a multiple of TAB_SIZE). -/
def tabAdvancesToStop (L : Str) : Prop :=
  ∀ i, (hi : i < L.length) → L.get ⟨i, hi⟩ = 9 →
    xToRx L (i + 1) % TAB_SIZE = 0 ∧
    xToRx L i < xToRx L (i + 1) ∧
    xToRx L (i + 1) ≤ xToRx L i + TAB_SIZE

/-- A one-line document whose line is a tab followed by the byte a, with its
cached render in sync and the cursor between the two bytes. -/
def sampleC2 : EditorConfig :=
  { lines := [[9, 97]], renders := [convertToRenderingRow [9, 97]], cursorX := 1 }

/-- C1: the claim says the render projection maps each tab byte to exactly
enough spaces (1 to 8) to reach the next multiple of 8.  The code instead
always emits exactly TAB_SIZE = 8 spaces: on the line "a" followed by a tab,
the render is "a" plus 8 spaces (render column 9 after the tab), although
the next multiple of 8 from column 1 is column 8.  This contradicts the
tab-stop arithmetic editorScroll itself uses for the cursor column. -/
theorem C1_tab_always_eight_spaces :
    convertToRenderingRow [97, 9] = [97, 32, 32, 32, 32, 32, 32, 32, 32] ∧
      (convertToRenderingRow [97, 9]).length ≠ 8 := by decide

/-- C2: the claim says every buffer mutation leaves renders[i] equal to
convertToRenderingRow(lines[i]), insertNewline regenerating both halves.
insertLine instead splits the cached render string at the byte offset
cursorX: on the line tab-then-a with cursorX = 1 the resulting renders are
a single space and seven-spaces-then-a, while the split lines are the tab
and the byte a, whose regenerated renders would be eight spaces and a.  The
sync invariant is broken after the split. -/
theorem C2_insertLine_desyncs_render :
    (insertLine sampleC2).map
        (fun s => decide (s.renders = s.lines.map convertToRenderingRow)) = some false := by
  decide

/-- C3: the claim says insertNewline with y = len(Lines) (Enter on the
virtual line past the end, e.g. on an empty document) terminates normally
with no out-of-bounds access.  The code calls
lines.insert(lines.begin() + cursorY + 1, "") which for cursorY =
lines.size() passes an iterator past end(): on the empty initial document
this inserts at position 1 of an empty vector, an out-of-bounds access, so
the embedding returns none for that input and for the one-key run. -/
theorem C3_enter_on_empty_out_of_bounds :
    insertLine (initialState [] 24 80 []) = none ∧
      runEditor (initialState [] 24 80 []) [13] = none := by decide

/-- C7: feeding the decoder exactly the bytes 0x1B, the open bracket, the
digit 5 and the tilde produces the single PageUp key event and consumes the
whole sequence, so no literal-key event is emitted for any of the four
bytes. -/
theorem C7_pageup_escape_sequence :
    readKey [27, 91, 53, 126] = (PAGE_UP, []) := by decide

/-- C10: processing the no-input event (key code 0, a byte-read timeout
with nothing pending) returns with the entire editor state unchanged:
lines, renders, cursor, offsets, dirty flag, filename and status message
are all identical. -/
theorem C10_no_input_is_noop (E : EditorConfig) : processKey 0 E = some E := by
  simp [processKey]

theorem rxAdvance_lt (rx c : Nat) : rx < rxAdvance rx c := by
  unfold rxAdvance TAB_SIZE
  split <;> omega

theorem foldl_rxAdvance_le (l : Str) (rx : Nat) : rx ≤ l.foldl rxAdvance rx := by
  induction l generalizing rx with
  | nil => simp
  | cons c rest ih =>
    simp only [List.foldl_cons]
    exact le_trans (le_of_lt (rxAdvance_lt rx c)) (ih _)

theorem xToRx_mono (L : Str) (x1 x2 : Nat) (h : x1 ≤ x2) : xToRx L x1 ≤ xToRx L x2 := by
  have h1 : L.take x1 = (L.take x2).take x1 := by
    rw [List.take_take, min_eq_left h]
  unfold xToRx
  rw [h1]
  conv_rhs => rw [← List.take_append_drop x1 (L.take x2)]
  rw [List.foldl_append]
  exact foldl_rxAdvance_le _ _

theorem foldl_rxAdvance_take_succ (L : Str) (i : Nat) (hi : i < L.length) (a : Nat) :
    (L.take (i + 1)).foldl rxAdvance a = rxAdvance ((L.take i).foldl rxAdvance a) (L.get ⟨i, hi⟩) := by
  induction L generalizing i a with
  | nil => simp at hi
  | cons c rest ih =>
    cases i with
    | zero => simp
    | succ j =>
      simp only [List.take_succ_cons, List.foldl_cons, List.get_cons_succ]
      exact ih j (by simpa using hi) (rxAdvance a c)

theorem xToRx_succ (L : Str) (i : Nat) (hi : i < L.length) :
    xToRx L (i + 1) = rxAdvance (xToRx L i) (L.get ⟨i, hi⟩) :=
  foldl_rxAdvance_take_succ L i hi 0

/-- C9: the byte-offset-to-render-column translation replayed by
editorScroll is monotone non-decreasing in the byte offset, and reading a
tab byte advances the render column to the next multiple of TAB_SIZE = 8:
the new column is a multiple of 8, strictly greater than the old one and at
most 8 beyond it. -/
theorem C9_xToRx_monotone_tabstop (L : Str) (x1 x2 : Nat) (h : x1 ≤ x2) :
    xToRx L x1 ≤ xToRx L x2 ∧ tabAdvancesToStop L := by
  refine ⟨xToRx_mono L x1 x2 h, ?_⟩
  intro i hi hc
  have hs := xToRx_succ L i hi
  rw [hc] at hs
  have h9 : rxAdvance (xToRx L i) 9 =
      xToRx L i + ((TAB_SIZE - 1) - xToRx L i % TAB_SIZE) + 1 := by
    simp [rxAdvance]
  rw [h9] at hs
  unfold TAB_SIZE at hs ⊢
  refine ⟨?_, ?_, ?_⟩ <;> omega

theorem C9_witness :
    1 ≤ 2 ∧ (xToRx [9, 97] 1 ≤ xToRx [9, 97] 2 ∧ tabAdvancesToStop [9, 97]) :=
  ⟨by decide, C9_xToRx_monotone_tabstop [9, 97] 1 2 (by decide)⟩

theorem offsetAdjust_idem (pos off win : Int) :
    offsetAdjust pos (offsetAdjust pos off win) win = offsetAdjust pos off win := by
  simp only [offsetAdjust]
  split_ifs <;> omega

theorem scrollRow_idem (Y : EditorConfig) : scrollRow (scrollRow Y) = scrollRow Y := by
  ext <;> simp [scrollRow, offsetAdjust_idem]

theorem scrollCol_stable (X : EditorConfig) :
    scrollCol (scrollRow (scrollCol X)) = scrollRow (scrollCol X) := by
  ext <;> simp [scrollCol, scrollRow, offsetAdjust_idem]

theorem scrollRX_stable (E : EditorConfig) :
    scrollRX (scrollRow (scrollCol (scrollRX E))) = scrollRow (scrollCol (scrollRX E)) := by
  by_cases h : 0 ≤ E.cursorY ∧ E.cursorY < (E.lines.length : Int)
  · ext <;> simp [scrollRX, scrollCol, scrollRow, rxValue, h]
  · ext <;> simp [scrollRX, scrollCol, scrollRow, rxValue, h]

/-- C8: editorScroll is idempotent: applying the viewport reconciliation
twice with no intervening cursor or buffer change produces exactly the same
editor state (in particular the same rowOffset, colOffset and cursorRX) as
applying it once. -/
theorem C8_scroll_idempotent (E : EditorConfig) :
    editorScroll (editorScroll E) = editorScroll E := by
  unfold editorScroll
  rw [scrollRX_stable, scrollCol_stable, scrollRow_idem]

theorem ctrlWith_q : ctrlWith 113 = 17 := rfl

theorem ctrlWith_s : ctrlWith 115 = 19 := rfl

theorem ctrlWith_h : ctrlWith 104 = 8 := rfl

theorem ctrlWith_l : ctrlWith 108 = 12 := rfl

/-- A one-line document with a known filename, the cursor inside the line:
insertChar, insertNewline and a real deleteChar all succeed from here. -/
def e0C4 : EditorConfig :=
  { lines := [[97, 98]], renders := [[97, 98]], cursorX := 1, filename := [102] }

def eiC4 : EditorConfig := (insertCharDefault 99 e0C4).getD e0C4

def enC4 : EditorConfig := (insertLine e0C4).getD e0C4

def edC4 : EditorConfig := (deleteChar e0C4).getD e0C4

/-- C4 counterexample: the claim says insertChar, insertNewline and
deleteChar each leave the dirty flag true and a successful save clears it.
On a clean one-line document, inserting a character leaves the flag false
and splitting the line leaves it false (neither ever assigns modified); and
save leaves a dirty state dirty (save assigns no editor field), so the flag
is never cleared either. -/
theorem C4_counterexample :
    insertCharDefault 99 e0C4 = some eiC4 ∧ eiC4.modified = false ∧
      insertLine e0C4 = some enC4 ∧ enC4.modified = false ∧
      ((save { e0C4 with modified := true }).1).modified = true := by decide

/-- C4 amended: the dirty flag is set by deleteChar whenever it actually
deletes (cursor neither at (0,0) nor on the virtual line past the end);
insertChar and insertNewline leave the flag unchanged, and save never
modifies it, so it is never cleared. -/
theorem C4_dirty_flag_amended (E Ei En Ed : EditorConfig) (c : Int)
    (hi : insertCharDefault c E = some Ei)
    (hn : insertLine E = some En)
    (hd : deleteChar E = some Ed)
    (h1 : ¬ E.cursorY = (E.lines.length : Int))
    (h2 : ¬ (E.cursorY = 0 ∧ E.cursorX = 0)) :
    Ei.modified = E.modified ∧ En.modified = E.modified ∧
      (save E).1.modified = E.modified ∧ Ed.modified = true := by
  refine ⟨?_, ?_, rfl, ?_⟩
  · by_cases hy : E.cursorY = (E.lines.length : Int)
    · simp only [insertCharDefault, if_pos hy] at hi
      split at hi
      · simp only [Option.some.injEq] at hi
        subst hi; rfl
      · exact absurd hi (by simp)
    · simp only [insertCharDefault, if_neg hy] at hi
      split at hi
      · simp only [Option.some.injEq] at hi
        subst hi; rfl
      · exact absurd hi (by simp)
  · simp only [insertLine] at hn
    split at hn
    · split at hn
      · simp only [Option.some.injEq] at hn
        subst hn; rfl
      · exact absurd hn (by simp)
    · exact absurd hn (by simp)
  · simp only [deleteChar, if_neg h1, if_neg h2] at hd
    split at hd
    · split at hd
      · simp only [Option.some.injEq] at hd
        subst hd; rfl
      · exact absurd hd (by simp)
    · split at hd
      · simp only [Option.some.injEq] at hd
        subst hd; rfl
      · exact absurd hd (by simp)

theorem C4_witness :
    insertCharDefault 99 e0C4 = some eiC4 ∧ insertLine e0C4 = some enC4 ∧
      deleteChar e0C4 = some edC4 ∧ ¬ e0C4.cursorY = (e0C4.lines.length : Int) ∧
      ¬ (e0C4.cursorY = 0 ∧ e0C4.cursorX = 0) ∧
      (eiC4.modified = e0C4.modified ∧ enC4.modified = e0C4.modified ∧
        (save e0C4).1.modified = e0C4.modified ∧ edC4.modified = true) :=
  ⟨by decide, by decide, by decide, by decide, by decide,
    C4_dirty_flag_amended e0C4 eiC4 enC4 edC4 99 (by decide) (by decide) (by decide)
      (by decide) (by decide)⟩

/-- A one-line document with the cursor at the end of the (only, hence
last) line. -/
def sampleC6 : EditorConfig := { lines := [[97]], renders := [[97]], cursorX := 1 }

/-- C6 counterexample: the claim says Delete at the end of the last line is
a full no-op, document and cursor position both unchanged.  On the document
with the single line a and cursor (0,1), Delete leaves the document
unchanged but moves the cursor to (1,0): move-right steps onto the virtual
line past the end, and only then does the backspace half no-op. -/
theorem C6_counterexample :
    processKey DEL_KEY sampleC6 = some { sampleC6 with cursorY := 1, cursorX := 0 } ∧
      ¬ ({ sampleC6 with cursorY := 1, cursorX := 0 } = sampleC6) := by decide

/-- C6 amended: pressing Delete with the cursor at the end of the last line
of a nonempty document leaves the lines, renders and dirty flag unchanged
but moves the cursor to (len(Lines), 0), the start of the virtual line past
the end; only the document, not the cursor, is preserved. -/
theorem C6_delete_at_end_moves_cursor (E : EditorConfig)
    (hlen : 0 < E.lines.length)
    (hy : E.cursorY = (E.lines.length : Int) - 1)
    (hx : E.cursorX = ((E.lines.getD (E.lines.length - 1) []).length : Int)) :
    processKey DEL_KEY E =
      some { E with cursorY := (E.lines.length : Int), cursorX := 0 } := by
  have step : processKey DEL_KEY E = deleteChar (moveCursor ARROW_RIGHT E) := by
    simp [processKey, DEL_KEY, HOME_KEY, END_KEY, BACKSPACE, ctrlWith_q, ctrlWith_s, ctrlWith_h]
  have hyn : E.cursorY.toNat = E.lines.length - 1 := by omega
  have hcl : lineAt E.lines E.cursorY = E.lines.getD (E.lines.length - 1) [] := by
    unfold lineAt
    rw [if_pos ⟨by omega, by omega⟩, hyn]
  have hxval : E.cursorX = ((lineAt E.lines E.cursorY).length : Int) := by
    rw [hcl]; exact hx
  have hc1 : ¬ (0 < (lineAt E.lines E.cursorY).length ∧ 0 ≤ E.cursorX ∧
      E.cursorX < ((lineAt E.lines E.cursorY).length : Int)) := by
    rw [hxval]; omega
  have hc2 : (0 ≤ E.cursorY ∧ E.cursorY < (E.lines.length : Int)) ∧
      E.cursorX = ((lineAt E.lines E.cursorY).length : Int) :=
    ⟨⟨by omega, by omega⟩, hxval⟩
  have hxy : moveCursorXY ARROW_RIGHT E = (E.cursorY + 1, 0) := by
    unfold moveCursorXY
    rw [if_neg (by decide : ¬ (ARROW_RIGHT = ARROW_LEFT)), if_pos rfl, if_neg hc1, if_pos hc2]
  have hpast : lineAt E.lines (E.cursorY + 1) = [] := by
    unfold lineAt
    rw [if_neg]
    rintro ⟨-, hlt⟩
    omega
  have hmove : moveCursor ARROW_RIGHT E = { E with cursorY := E.cursorY + 1, cursorX := 0 } := by
    unfold moveCursor
    rw [hxy]
    simp [hpast]
  have hdel : deleteChar { E with cursorY := E.cursorY + 1, cursorX := 0 } =
      some { E with cursorY := E.cursorY + 1, cursorX := 0 } := by
    unfold deleteChar
    rw [if_pos]
    show E.cursorY + 1 = (E.lines.length : Int)
    omega
  have hfin : E.cursorY + 1 = (E.lines.length : Int) := by omega
  rw [step, hmove, hdel, hfin]

/-- A two-byte one-line document with the cursor at the end of the line. -/
def sampleC6w : EditorConfig := { lines := [[97, 98]], renders := [[97, 98]], cursorX := 2 }

theorem C6_witness :
    0 < sampleC6w.lines.length ∧
      sampleC6w.cursorY = (sampleC6w.lines.length : Int) - 1 ∧
      sampleC6w.cursorX = ((sampleC6w.lines.getD (sampleC6w.lines.length - 1) []).length : Int) ∧
      processKey DEL_KEY sampleC6w =
        some { sampleC6w with cursorY := (sampleC6w.lines.length : Int), cursorX := 0 } :=
  ⟨by decide, by decide, by decide,
    C6_delete_at_end_moves_cursor sampleC6w (by decide) (by decide) (by decide)⟩

theorem getD_set_self (l : List α) (n : Nat) (v d : α) (h : n < l.length) :
    (l.set n v).getD n d = v := by
  rw [List.getD_eq_getElem _ _ (by simpa using h)]
  simp [List.getElem_set, h]

theorem getD_take_lt (l : List α) (k n : Nat) (d : α) (h : n < k) :
    (l.take k).getD n d = l.getD n d := by
  by_cases h2 : n < l.length
  · rw [List.getD_eq_getElem _ _ (by simp; omega), List.getD_eq_getElem _ _ h2]
    simp [List.getElem_take]
  · rw [List.getD_eq_default _ _ (by simp; omega), List.getD_eq_default _ _ (by omega)]

theorem length_listInsertAt (l : List α) (k : Nat) (a : α) (h : k ≤ l.length) :
    (listInsertAt l k a).length = l.length + 1 := by
  simp [listInsertAt]
  omega

theorem length_listEraseAt (l : List α) (k : Nat) (h : k < l.length) :
    (listEraseAt l k).length = l.length - 1 := by
  simp [listEraseAt]
  omega

theorem getD_listEraseAt_lt (l : List α) (k n : Nat) (d : α) (hk : k ≤ l.length) (h : n < k) :
    (listEraseAt l k).getD n d = l.getD n d := by
  unfold listEraseAt
  rw [List.getD_append _ _ _ _ (by simp; omega), getD_take_lt _ _ _ _ h]

theorem getD_listInsertAt_lt (l : List α) (k n : Nat) (a d : α) (hn : n < k)
    (hnl : n < l.length) : (listInsertAt l k a).getD n d = l.getD n d := by
  unfold listInsertAt
  rw [List.getD_append _ _ _ _ (by simp; omega), List.getD_append _ _ _ _ (by simp; omega),
    getD_take_lt _ _ _ _ hn]

theorem lineAt_eq_getD (ls : List Str) (y : Int) (h : 0 ≤ y) :
    lineAt ls y = ls.getD y.toNat [] := by
  unfold lineAt
  split
  · rfl
  · next hc => exact (List.getD_eq_default ls [] (by omega)).symm

theorem editorScroll_cursorX (E : EditorConfig) : (editorScroll E).cursorX = E.cursorX := by
  unfold editorScroll scrollRow scrollCol scrollRX
  split <;> rfl

theorem editorScroll_cursorY (E : EditorConfig) : (editorScroll E).cursorY = E.cursorY := by
  unfold editorScroll scrollRow scrollCol scrollRX
  split <;> rfl

theorem editorScroll_lines (E : EditorConfig) : (editorScroll E).lines = E.lines := by
  unfold editorScroll scrollRow scrollCol scrollRX
  split <;> rfl

theorem editorScroll_screenRows (E : EditorConfig) :
    (editorScroll E).screenRows = E.screenRows := by
  unfold editorScroll scrollRow scrollCol scrollRX
  split <;> rfl

theorem editorScroll_rowOffset_eq (E : EditorConfig) :
    (editorScroll E).rowOffset = offsetAdjust E.cursorY E.rowOffset E.screenRows := by
  unfold editorScroll scrollRow scrollCol scrollRX
  split <;> rfl

theorem offsetAdjust_bounds (pos off win : Int) (h0 : 0 ≤ pos) (h1 : 0 ≤ off)
    (h2 : 1 ≤ win) : 0 ≤ offsetAdjust pos off win ∧ offsetAdjust pos off win ≤ pos := by
  simp only [offsetAdjust]
  split_ifs <;> omega

theorem moveCursor_lines (k : Int) (E : EditorConfig) : (moveCursor k E).lines = E.lines := by
  simp only [moveCursor]
  split <;> rfl

theorem moveCursor_rowOffset (k : Int) (E : EditorConfig) :
    (moveCursor k E).rowOffset = E.rowOffset := by
  simp only [moveCursor]
  split <;> rfl

theorem moveCursor_screenRows (k : Int) (E : EditorConfig) :
    (moveCursor k E).screenRows = E.screenRows := by
  simp only [moveCursor]
  split <;> rfl

theorem moveCursorXY_bounds (k : Int) (E : EditorConfig)
    (h0 : 0 ≤ E.cursorY) (h1 : E.cursorY ≤ (E.lines.length : Int)) (h2 : 0 ≤ E.cursorX) :
    0 ≤ (moveCursorXY k E).1 ∧ (moveCursorXY k E).1 ≤ (E.lines.length : Int) ∧
      0 ≤ (moveCursorXY k E).2 := by
  simp only [moveCursorXY]
  split_ifs <;> dsimp only <;> omega

theorem moveCursor_inv (k : Int) (E : EditorConfig)
    (h0 : 0 ≤ E.cursorY) (h1 : E.cursorY ≤ (E.lines.length : Int)) (h2 : 0 ≤ E.cursorX) :
    cursorInv (moveCursor k E) := by
  obtain ⟨b0, b1, b2⟩ := moveCursorXY_bounds k E h0 h1 h2
  have hla : lineAt E.lines (moveCursorXY k E).1 =
      E.lines.getD (moveCursorXY k E).1.toNat [] := lineAt_eq_getD _ _ b0
  simp only [moveCursor]
  split
  · next hgt =>
    refine ⟨b0, b1, ?_, ?_⟩ <;> simp [hla]
  · next hle =>
    refine ⟨b0, b1, b2, ?_⟩
    simp only [cursorInv]
    rw [← hla]
    omega

theorem deleteChar_inv (E E1 : EditorConfig) (hinv : cursorInv E)
    (h : deleteChar E = some E1) :
    cursorInv E1 ∧ E1.rowOffset = E.rowOffset ∧ E1.screenRows = E.screenRows := by
  simp only [deleteChar] at h
  split at h
  · simp only [Option.some.injEq] at h
    subst h
    exact ⟨hinv, rfl, rfl⟩
  · split at h
    · simp only [Option.some.injEq] at h
      subst h
      exact ⟨hinv, rfl, rfl⟩
    · split at h
      · next hxpos =>
        split at h
        · next hok =>
          obtain ⟨⟨hy0, hylt⟩, hyr, hxle⟩ := hok
          simp only [Option.some.injEq] at h
          subst h
          dsimp only [cursorInv]
          refine ⟨⟨hy0, ?_, by omega, ?_⟩, rfl, rfl⟩
          · simp only [List.length_set]
            omega
          · rw [getD_set_self _ _ _ _ (by omega)]
            simp only [List.length_append, List.length_take, List.length_drop]
            omega
        · exact absurd h (by simp)
      · next hxneg =>
        split at h
        · next hok =>
          obtain ⟨hy1, hylt, hyr⟩ := hok
          simp only [Option.some.injEq] at h
          subst h
          dsimp only [cursorInv]
          have htn : (E.cursorY - 1).toNat = E.cursorY.toNat - 1 := by omega
          refine ⟨⟨by omega, ?_, by omega, ?_⟩, rfl, rfl⟩
          · rw [length_listEraseAt _ _ (by simp only [List.length_set]; omega)]
            simp only [List.length_set]
            omega
          · rw [htn,
              getD_listEraseAt_lt _ _ _ _ (by simp only [List.length_set]; omega) (by omega),
              getD_set_self _ _ _ _ (by omega)]
            simp only [List.length_append]
            omega
        · exact absurd h (by simp)

theorem insertLine_inv (E E1 : EditorConfig) (h : insertLine E = some E1) :
    cursorInv E1 ∧ E1.rowOffset = E.rowOffset ∧ E1.screenRows = E.screenRows := by
  simp only [insertLine] at h
  split at h
  · next hok1 =>
    obtain ⟨hy0, hyl, hyr⟩ := hok1
    split at h
    · next hok2 =>
      simp only [Option.some.injEq] at h
      subst h
      dsimp only [cursorInv]
      refine ⟨⟨by omega, ?_, by omega, by omega⟩, rfl, rfl⟩
      simp only [List.length_set]
      rw [length_listInsertAt _ _ _ (by omega)]
      omega
    · exact absurd h (by simp)
  · exact absurd h (by simp)

theorem iterate_moveCursor_lines (k : Int) (n : Nat) (E : EditorConfig) :
    ((moveCursor k)^[n] E).lines = E.lines := by
  induction n generalizing E with
  | zero => rfl
  | succ m ih =>
    rw [Function.iterate_succ_apply, ih (moveCursor k E), moveCursor_lines]

theorem iterate_moveCursor_rowOffset (k : Int) (n : Nat) (E : EditorConfig) :
    ((moveCursor k)^[n] E).rowOffset = E.rowOffset := by
  induction n generalizing E with
  | zero => rfl
  | succ m ih =>
    rw [Function.iterate_succ_apply, ih (moveCursor k E), moveCursor_rowOffset]

theorem iterate_moveCursor_screenRows (k : Int) (n : Nat) (E : EditorConfig) :
    ((moveCursor k)^[n] E).screenRows = E.screenRows := by
  induction n generalizing E with
  | zero => rfl
  | succ m ih =>
    rw [Function.iterate_succ_apply, ih (moveCursor k E), moveCursor_screenRows]

theorem iterate_moveCursor_inv (k : Int) (n : Nat) (E : EditorConfig)
    (h0 : 0 ≤ E.cursorY) (h1 : E.cursorY ≤ (E.lines.length : Int)) (h2 : 0 ≤ E.cursorX) :
    cursorInv ((moveCursor k)^[n + 1] E) := by
  induction n generalizing E with
  | zero => simpa using moveCursor_inv k E h0 h1 h2
  | succ m ih =>
    rw [Function.iterate_succ_apply]
    obtain ⟨g0, g1, g2, g3⟩ := moveCursor_inv k E h0 h1 h2
    exact ih (moveCursor k E) g0 g1 g2

theorem insertCharDefault_inv (c : Int) (E E1 : EditorConfig)
    (h : insertCharDefault c E = some E1) :
    cursorInv E1 ∧ E1.rowOffset = E.rowOffset ∧ E1.screenRows = E.screenRows := by
  simp only [insertCharDefault] at h
  by_cases hy : E.cursorY = (E.lines.length : Int)
  · simp only [if_pos hy] at h
    split at h
    · next hok =>
      obtain ⟨⟨h1, h2⟩, h3, h4, h5⟩ := hok
      simp only [Option.some.injEq] at h
      subst h
      dsimp only [cursorInv]
      refine ⟨⟨h1, ?_, by omega, ?_⟩, rfl, rfl⟩
      · simp only [List.length_set]
        omega
      · rw [getD_set_self _ _ _ _ (by omega)]
        simp only [List.length_append, List.length_take, List.length_drop,
          List.length_cons, List.length_nil]
        omega
    · exact absurd h (by simp)
  · simp only [if_neg hy] at h
    split at h
    · next hok =>
      obtain ⟨⟨h1, h2⟩, h3, h4, h5⟩ := hok
      simp only [Option.some.injEq] at h
      subst h
      dsimp only [cursorInv]
      refine ⟨⟨h1, ?_, by omega, ?_⟩, rfl, rfl⟩
      · simp only [List.length_set]
        omega
      · rw [getD_set_self _ _ _ _ (by omega)]
        simp only [List.length_append, List.length_take, List.length_drop,
          List.length_cons, List.length_nil]
        omega
    · exact absurd h (by simp)

theorem processKey_inv (c : Int) (E E1 : EditorConfig)
    (hinv : cursorInv E) (hro0 : 0 ≤ E.rowOffset) (hroy : E.rowOffset ≤ E.cursorY)
    (hR : 1 ≤ E.screenRows)
    (h : processKey c E = some E1) :
    cursorInv E1 ∧ E1.rowOffset = E.rowOffset ∧ E1.screenRows = E.screenRows := by
  obtain ⟨hy0, hy1, hx0, hxb⟩ := hinv
  unfold processKey at h
  by_cases h0 : c = 0
  · rw [if_pos h0] at h
    simp only [Option.some.injEq] at h
    subst h
    exact ⟨⟨hy0, hy1, hx0, hxb⟩, rfl, rfl⟩
  rw [if_neg h0] at h
  by_cases h13 : c = 13
  · rw [if_pos h13] at h
    exact insertLine_inv E E1 h
  rw [if_neg h13] at h
  by_cases hq : c = ctrlWith 113
  · rw [if_pos hq] at h
    simp only [Option.some.injEq] at h
    subst h
    exact ⟨⟨hy0, hy1, hx0, hxb⟩, rfl, rfl⟩
  rw [if_neg hq] at h
  by_cases hsv : c = ctrlWith 115
  · rw [if_pos hsv] at h
    simp only [save, Option.some.injEq] at h
    subst h
    exact ⟨⟨hy0, hy1, hx0, hxb⟩, rfl, rfl⟩
  rw [if_neg hsv] at h
  by_cases hhm : c = HOME_KEY
  · rw [if_pos hhm] at h
    simp only [Option.some.injEq] at h
    subst h
    dsimp only [cursorInv]
    exact ⟨⟨hy0, hy1, by omega, by omega⟩, rfl, rfl⟩
  rw [if_neg hhm] at h
  by_cases hed : c = END_KEY
  · rw [if_pos hed] at h
    split at h
    · simp only [Option.some.injEq] at h
      subst h
      dsimp only [cursorInv]
      exact ⟨⟨hy0, hy1, by omega, by omega⟩, rfl, rfl⟩
    · simp only [Option.some.injEq] at h
      subst h
      exact ⟨⟨hy0, hy1, hx0, hxb⟩, rfl, rfl⟩
  rw [if_neg hed] at h
  by_cases hbs : c = BACKSPACE ∨ c = ctrlWith 104 ∨ c = DEL_KEY
  · rw [if_pos hbs] at h
    by_cases hdk : c = DEL_KEY
    · rw [if_pos hdk] at h
      have hm := moveCursor_inv ARROW_RIGHT E hy0 hy1 hx0
      obtain ⟨hi1, hi2, hi3⟩ := deleteChar_inv _ E1 hm h
      exact ⟨hi1, by rw [hi2, moveCursor_rowOffset], by rw [hi3, moveCursor_screenRows]⟩
    · rw [if_neg hdk] at h
      exact deleteChar_inv E E1 ⟨hy0, hy1, hx0, hxb⟩ h
  rw [if_neg hbs] at h
  by_cases hpg : c = PAGE_UP ∨ c = PAGE_DOWN
  · rw [if_pos hpg] at h
    simp only [Option.some.injEq] at h
    subst h
    by_cases hup : c = PAGE_UP
    · simp only [if_pos hup]
      have hn : E.screenRows.toNat = (E.screenRows.toNat - 1) + 1 := by omega
      refine ⟨?_, ?_, ?_⟩
      · rw [hn]
        exact iterate_moveCursor_inv ARROW_UP _ _ (by dsimp only; omega)
          (by dsimp only; omega) (by dsimp only; omega)
      · rw [iterate_moveCursor_rowOffset]
      · rw [iterate_moveCursor_screenRows]
    · simp only [if_neg hup]
      have hn : E.screenRows.toNat = (E.screenRows.toNat - 1) + 1 := by omega
      refine ⟨?_, ?_, ?_⟩
      · rw [hn]
        refine iterate_moveCursor_inv ARROW_DOWN _ _ ?_ ?_ ?_ <;> (try split_ifs) <;>
          (try dsimp only) <;> omega
      · rw [iterate_moveCursor_rowOffset]
      · rw [iterate_moveCursor_screenRows]
  rw [if_neg hpg] at h
  by_cases har : c = ARROW_DOWN ∨ c = ARROW_UP ∨ c = ARROW_LEFT ∨ c = ARROW_RIGHT
  · rw [if_pos har] at h
    simp only [Option.some.injEq] at h
    subst h
    exact ⟨moveCursor_inv c E hy0 hy1 hx0, moveCursor_rowOffset c E, moveCursor_screenRows c E⟩
  rw [if_neg har] at h
  by_cases hlc : c = ctrlWith 108 ∨ c = 27
  · rw [if_pos hlc] at h
    simp only [Option.some.injEq] at h
    subst h
    exact ⟨⟨hy0, hy1, hx0, hxb⟩, rfl, rfl⟩
  rw [if_neg hlc] at h
  exact insertCharDefault_inv c E E1 h

/-- The strengthened invariant maintained across main-loop iterations. -/
def stateInv (E : EditorConfig) : Prop :=
  cursorInv E ∧ 0 ≤ E.rowOffset ∧ 1 ≤ E.screenRows

theorem loopStep_inv (c : Int) (E E1 : EditorConfig) (hs : stateInv E)
    (h : loopStep c E = some E1) : stateInv E1 := by
  obtain ⟨⟨hy0, hy1, hx0, hxb⟩, hro, hR⟩ := hs
  unfold loopStep at h
  have hcx := editorScroll_cursorX E
  have hcy := editorScroll_cursorY E
  have hln := editorScroll_lines E
  have hsr := editorScroll_screenRows E
  have hroq := editorScroll_rowOffset_eq E
  have hob := offsetAdjust_bounds E.cursorY E.rowOffset E.screenRows hy0 hro hR
  have hinvT : cursorInv (editorScroll E) := by
    unfold cursorInv
    rw [hcx, hcy, hln]
    exact ⟨hy0, hy1, hx0, hxb⟩
  have h1 := processKey_inv c (editorScroll E) E1 hinvT
    (by rw [hroq]; exact hob.1)
    (by rw [hroq, hcy]; exact hob.2)
    (by rw [hsr]; exact hR) h
  exact ⟨h1.1, ⟨by rw [h1.2.1, hroq]; exact hob.1, by rw [h1.2.2, hsr]; exact hR⟩⟩

theorem runEditor_inv (ks : List Int) (E E1 : EditorConfig) (hs : stateInv E)
    (h : runEditor E ks = some E1) : stateInv E1 := by
  induction ks generalizing E with
  | nil =>
    simp only [runEditor, Option.some.injEq] at h
    subst h
    exact hs
  | cons c cs ih =>
    unfold runEditor at h
    cases hstep : loopStep c E with
    | none => rw [hstep] at h; exact absurd h (by simp)
    | some E2 =>
      rw [hstep] at h
      exact ih E2 (loopStep_inv c E E2 hs hstep) h

theorem initialState_inv (fileLines : List Str) (rows cols : Int) (fname : Str)
    (h : 3 ≤ rows) : stateInv (initialState fileLines rows cols fname) := by
  unfold stateInv cursorInv initialState
  dsimp only
  exact ⟨⟨by omega, by omega, by omega, by omega⟩, by omega, by omega⟩

/-- C5 counterexample: the claim quantifies over every initial state, but it
fails on a 2-row terminal (screenRows = 0): starting from the one-line
document a, ArrowDown then PageUp leaves cursorY = 2 with len(Lines) = 1,
because PageUp jumps the cursor to rowOffset, which the preceding scroll
pushed one past the cursor when screenRows = 0, and the zero-iteration
clamp loop never runs.  Separately, pressing Enter from the virtual line of
the empty initial document aborts with an out-of-bounds insert (claim C3),
so that run has no final state at all. -/
theorem C5_counterexample :
    (runEditor (initialState [[97]] 2 10 []) [ARROW_DOWN, PAGE_UP]).map
        (fun s => decide (s.cursorY ≤ (s.lines.length : Int))) = some false ∧
      runEditor (initialState [] 24 80 []) [13] = none := by decide

/-- C5 amended: after any sequence of key events processed from the initial
state of a terminal with at least 3 rows (so screenRows ≥ 1), if the run
completes without an out-of-bounds access then the cursor satisfies
0 ≤ y ≤ len(Lines) and 0 ≤ x ≤ len(Lines[y]), with x = 0 when
y = len(Lines). -/
theorem C5_cursor_invariant (fileLines : List Str) (rows cols : Int) (fname : Str)
    (ks : List Int) (Efin : EditorConfig) (hrows : 3 ≤ rows)
    (hrun : runEditor (initialState fileLines rows cols fname) ks = some Efin) :
    0 ≤ Efin.cursorY ∧ Efin.cursorY ≤ (Efin.lines.length : Int) ∧ 0 ≤ Efin.cursorX ∧
      Efin.cursorX ≤ ((Efin.lines.getD Efin.cursorY.toNat []).length : Int) ∧
      (Efin.cursorY = (Efin.lines.length : Int) → Efin.cursorX = 0) := by
  obtain ⟨⟨a, b, c2, d⟩, -, -⟩ :=
    runEditor_inv ks _ Efin (initialState_inv fileLines rows cols fname hrows) hrun
  refine ⟨a, b, c2, d, ?_⟩
  intro he
  have hz : Efin.lines.getD Efin.cursorY.toNat [] = [] :=
    List.getD_eq_default _ _ (by omega)
  rw [hz] at d
  simp at d
  omega

def c5Init : EditorConfig := initialState [[97]] 25 80 []

def c5Final : EditorConfig := (runEditor c5Init [ARROW_RIGHT, 98, 13]).getD c5Init

theorem C5_witness :
    3 ≤ 25 ∧
      (0 ≤ c5Final.cursorY ∧ c5Final.cursorY ≤ (c5Final.lines.length : Int) ∧
        0 ≤ c5Final.cursorX ∧
        c5Final.cursorX ≤ ((c5Final.lines.getD c5Final.cursorY.toNat []).length : Int) ∧
        (c5Final.cursorY = (c5Final.lines.length : Int) → c5Final.cursorX = 0)) :=
  ⟨by decide, C5_cursor_invariant [[97]] 25 80 [] [ARROW_RIGHT, 98, 13] c5Final
    (by decide) (by decide)⟩
